import Mathlib

/-!
Verification development for the mail-agent repository.

The definitions below are shallow embeddings of the JavaScript sources:
  * the generic `StateMachine` class (orchestrator): planner-reply
    normalisation, action-queue processing, per-action retries, stopping;
  * `OpenAIService._processApiResponse` (planner client reply handling);
  * the static `DOMParser.executeAction` observation logic of dom-parser.js
    (before/after page observation and the no-visible-change click warning);
  * the instance `DOMParser` of the actionable-element extractor:
    `_extractActionableElements`, `getActionableElements`,
    `_isElementVisible`, `_inferRoleFromTagName`, and the role+name target
    resolution inside its `executeAction`.

JavaScript strings are modelled by `String`, absent values (`undefined` or
`null`) by `Option`, JS `||` string defaulting by `jsOr`, and live DOM
element identity (JS `===` on nodes) by a numeric `ref` tag.
-/

/-- JS string defaulting `a || b`: `b` when `a` is the empty string. -/
def jsOr (a b : String) : String :=
  if a = "" then b else a

/-- Does the character list `n` occur at the head of `h`? -/
def headMatches : List Char → List Char → Bool
  | [], _ => true
  | _ :: _, [] => false
  | a :: as, b :: bs => a == b && headMatches as bs

/-- Does the character list `n` occur contiguously anywhere inside `h`? -/
def containsSeq (n : List Char) : List Char → Bool
  | [] => headMatches n []
  | c :: t => headMatches n (c :: t) || containsSeq n t

/-- JS `hay.includes(nee)`: case-sensitive substring test. -/
def strIncludes (hay nee : String) : Bool :=
  containsSeq nee.data hay.data

/-- JS `s.toLowerCase()` (ASCII-adequate model using `Char.toLower`). -/
def lowerStr (s : String) : String :=
  ⟨s.data.map Char.toLower⟩

/-! ## StateMachine (orchestrator)

Model of the `StateMachine` class: `_enterState` normalises the planner
reply into an action list and pushes it wholesale onto `actionQueue`;
`_processActionQueue` executes the queue sequentially with
`_handleActionFailure` retrying a failed action (re-queued at the front)
until `retryCount` exceeds `maxRetries`, at which point the machine calls
`stop()`.  Execution outcomes of `domParser.executeAction` are abstracted
by a boolean-valued oracle `exec`. -/

/-- An opaque action object handed to `domParser.executeAction`. -/
structure SMAction where
  aid : Nat
  deriving DecidableEq, Repr

/-- The planner reply as seen by `_enterState`: possibly an `actions`
array, possibly a single `action` object. -/
structure PlannerReply where
  actions : Option (List SMAction)
  action : Option SMAction
  deriving DecidableEq, Repr

/-- JS `const actions = Array.isArray(result?.actions) ? result.actions :
(result?.action ? [result.action] : []);` -/
def smActionList (result : Option PlannerReply) : List SMAction :=
  match result with
  | none => []
  | some r =>
    match r.actions with
    | some l => l
    | none =>
      match r.action with
      | some a => [a]
      | none => []

/-- How one round of queue processing ends: `advance` when the queue is
drained and the machine calls `_transitionToNextState` (which replans by
entering the next state); `halt` when `_handleActionFailure` exhausts the
retry budget and calls `stop()` (clearing the queue and terminating). -/
inductive RoundOutcome where
  | advance
  | halt
  deriving DecidableEq, Repr

/-- Model of `_processActionQueue` / `_handleActionFailure`: dequeue the head
action, execute it; on success reset `retryCount` and continue; on failure
increment `retryCount` and, if still within `maxRetries`, re-queue the
same action at the front and try again, otherwise stop the machine.
Returns the trace of execution attempts together with the outcome. -/
def processQueue (exec : SMAction → Bool) (maxRetries : Nat) :
    List SMAction → Nat → List SMAction × RoundOutcome
  | [], _ => ([], .advance)
  | a :: rest, retryCount =>
    if exec a then
      let r := processQueue exec maxRetries rest 0
      (a :: r.1, r.2)
    else
      if retryCount + 1 ≤ maxRetries then
        let r := processQueue exec maxRetries (a :: rest) (retryCount + 1)
        (a :: r.1, r.2)
      else
        ([a], .halt)
  termination_by queue retryCount => (queue.length, maxRetries - retryCount)
  decreasing_by
    · simp only [List.length_cons]
      exact Prod.Lex.left _ _ (Nat.lt_succ_self _)
    · exact Prod.Lex.right _ (by omega)

/-- One `_enterState` round after the planner reply arrives: enqueue every
proposed action and process the queue (entered with `retryCount = 0`,
which `_enterState` resets). -/
def enterStateRound (exec : SMAction → Bool) (maxRetries : Nat)
    (result : Option PlannerReply) : List SMAction × RoundOutcome :=
  processQueue exec maxRetries (smActionList result) 0

/-! ## OpenAIService reply processing

Model of `OpenAIService._processApiResponse`.  The reply content is a
string; `JSON.parse` and the regex that digs a fenced/embedded JSON block
out of surrounding prose are platform primitives, passed in as the
parameters `parse` and `extractEmbedded`.  JSON values are modelled by a
small inductive `Json` type. -/

/-- A JSON value (the shapes the planner reply can take). -/
inductive Json where
  | null
  | bool (b : Bool)
  | num (n : Int)
  | str (s : String)
  | arr (elems : List Json)
  | obj (fields : List (String × Json))
  deriving Repr

/-- Field lookup on a JSON object (`undefined` for non-objects). -/
def jGet (j : Json) (k : String) : Option Json :=
  match j with
  | .obj fields => fields.lookup k
  | _ => none

/-- JS truthiness of a JSON value. -/
def jTruthy : Json → Bool
  | .null => false
  | .bool b => b
  | .num n => n != 0
  | .str s => s != ""
  | .arr _ => true
  | .obj _ => true

/-- The normalised result `_processApiResponse` hands back. -/
structure ProcessedResult where
  rawResponse : Option String
  actions : List Json
  context : Option Json
  error : Option String
  deriving Repr

/-- The error result produced by the `catch` block of
`_processApiResponse` (empty action list plus error flag). -/
def processErrorResult (msg : String) : ProcessedResult :=
  { rawResponse := none
    actions := []
    context := none
    error := some ("Error processing API response: " ++ msg) }

/-- Normalisation of a successfully parsed reply: `action` (when truthy)
wins over an `actions` array; a truthy `context` is passed through. -/
def normalizeParsed (raw : String) (p : Json) : ProcessedResult :=
  let fromArray : List Json :=
    match jGet p "actions" with
    | some (.arr l) => l
    | _ => []
  let acts : List Json :=
    match jGet p "action" with
    | some v => if jTruthy v then [v] else fromArray
    | none => fromArray
  let ctx : Option Json :=
    match jGet p "context" with
    | some c => if jTruthy c then some c else none
    | none => none
  { rawResponse := some raw, actions := acts, context := ctx, error := none }

/-- Container shapes for `response.choices[0].message.content`. -/
structure ChatMessage where
  content : String
  deriving Repr

structure ApiChoice where
  message : ChatMessage
  deriving Repr

structure ApiResponse where
  choices : List ApiChoice
  deriving Repr

/-- Model of `OpenAIService._processApiResponse`: reject a reply without choices;
try `JSON.parse` on the content; on parse failure try to extract an
embedded JSON block from the prose and parse that; if everything fails,
the thrown error is caught and converted into an empty action list with
the error flag set. -/
def processApiResponse (parse : String → Option Json)
    (extractEmbedded : String → Option String)
    (response : ApiResponse) : ProcessedResult :=
  match response.choices with
  | [] => processErrorResult "Invalid API response: No choices returned"
  | c :: _ =>
    let raw := c.message.content
    match parse raw with
    | some p => normalizeParsed raw p
    | none =>
      match extractEmbedded raw with
      | some inner =>
        match parse inner with
        | some p => normalizeParsed raw p
        | none => processErrorResult "Could not parse JSON from response"
      | none =>
        processErrorResult
          "Response is not valid JSON and could not extract JSON from it"

/-! ## Static DOMParser: action-effect observation

Model of the before/after observation in the static
`DOMParser.executeAction` of dom-parser.js: page observables captured
before and after the interaction, the materiality thresholds, and the
special success-with-warning result for a click with no visible change. -/

/-- The page observables sampled before and after an action.  The active
element is identified by a numeric node tag. -/
structure PageObs where
  url : String
  bodyHTMLLen : Nat
  activeElement : Nat
  scrollTop : Int
  dialogCount : Nat
  modalCount : Nat
  deriving DecidableEq, Repr

/-- The materiality test: URL/focus/dialog/modal changes count always,
document size only beyond 100 characters, scroll only beyond 50 pixels. -/
def anyVisibleChange (b a : PageObs) : Bool :=
  let urlChanged := decide (b.url ≠ a.url)
  let contentChanged :=
    decide (100 < ((b.bodyHTMLLen : Int) - (a.bodyHTMLLen : Int)).natAbs)
  let focusChanged := decide (b.activeElement ≠ a.activeElement)
  let scrollChanged := decide (50 < (b.scrollTop - a.scrollTop).natAbs)
  let dialogChanged := decide (b.dialogCount ≠ a.dialogCount)
  let modalChanged := decide (b.modalCount ≠ a.modalCount)
  urlChanged || contentChanged || focusChanged || scrollChanged ||
    dialogChanged || modalChanged

/-- Result object resolved after the observation delay. -/
structure ActionObsResult where
  success : Bool
  visibleChange : Option Bool
  warning : Option String
  error : Option String
  deriving DecidableEq, Repr

/-- The observation stage of the static `DOMParser.executeAction`: a click
with no visible change still resolves `success: true`, flagged with a
warning; every other combination resolves plain success with the observed
`visibleChange` bit. -/
def observeAfterAction (action : String) (b a : PageObs) : ActionObsResult :=
  let ch := anyVisibleChange b a
  if !ch && action == "click" then
    { success := true
      visibleChange := none
      warning := some "Click executed but no visible change detected."
      error := none }
  else
    { success := true, visibleChange := some ch, warning := none, error := none }

/-! ## Instance DOMParser: actionable-element extraction

Model of the instance `DOMParser` (the extractor variant with
`getActionableElements` / `_extractActionableElements`).  The document is
a flat list of elements in document order; each CSS query of the source is
a decidable filter over it.  `_findLabelForElement` walks document
structure that has no counterpart in the flat list, so its result is
carried on the element as `labelText`. -/

/-- One `<option>` of a select element. -/
structure OptEntry where
  value : String
  text : String
  selected : Bool
  deriving DecidableEq, Repr

/-- Computed style as read by `_isElementVisible`. -/
structure ElStyle where
  display : String
  visibility : String
  opacity : String
  deriving DecidableEq, Repr

/-- A live DOM element as the extractor sees it.  `ref` models node
identity (JS `===`); `none` in an `Option String` attribute models a
missing attribute (`getAttribute` returning `null`). -/
structure DomElement where
  ref : Nat
  tag : String
  typeAttr : Option String
  disabled : Bool
  href : Option String
  roleAttr : Option String
  placeholderAttr : Option String
  value : Option String
  nameAttr : Option String
  domId : String
  classes : List String
  innerText : String
  textContent : String
  ariaLabel : Option String
  ariaSelected : Option String
  ariaExpanded : Option String
  ariaChecked : Option String
  labelText : String
  opts : List OptEntry
  style : ElStyle
  offsetWidth : Nat
  offsetHeight : Nat
  deriving DecidableEq, Repr

/-- Model of `_isElementVisible`: computed style plus a non-zero rendered box. -/
def isElementVisible (el : DomElement) : Bool :=
  el.style.display != "none" && el.style.visibility != "hidden" &&
    el.style.opacity != "0" && decide (0 < el.offsetWidth) &&
    decide (0 < el.offsetHeight)

/-- The `type` property of an input (`input.type || 'text'`; a missing or
empty attribute reads back as `text`). -/
def inputTypeProp (el : DomElement) : String :=
  jsOr (el.typeAttr.getD "") "text"

/-- Model of `_inferRoleFromTagName`: implicit ARIA role from tag (and input type). -/
def inferRoleFromTagName (el : DomElement) : String :=
  match el.tag with
  | "a" => "link"
  | "button" => "button"
  | "input" =>
    match inputTypeProp el with
    | "button" => "button"
    | "submit" => "button"
    | "reset" => "button"
    | "checkbox" => "checkbox"
    | "radio" => "radio"
    | "range" => "slider"
    | "search" => "searchbox"
    | _ => "textbox"
  | "textarea" => "textbox"
  | "select" => "combobox"
  | "table" => "table"
  | "th" => "columnheader"
  | "tr" => "row"
  | "img" => "img"
  | "ul" => "list"
  | "ol" => "list"
  | "li" => "listitem"
  | "form" => "form"
  | "header" => "banner"
  | "nav" => "navigation"
  | "main" => "main"
  | "footer" => "contentinfo"
  | "aside" => "complementary"
  | "section" => "region"
  | _ => ""

/-- The `ariaRole` stored on every descriptor:
`el.getAttribute('role') || this._inferRoleFromTagName(el)`. -/
def ariaRoleOf (el : DomElement) : String :=
  jsOr (el.roleAttr.getD "") (inferRoleFromTagName el)

/-- Selector `input:not([type="hidden"]):not([disabled])`. -/
def inputQuery (el : DomElement) : Bool :=
  el.tag == "input" && el.typeAttr != some "hidden" && !el.disabled

/-- Selector `textarea:not([disabled])`. -/
def textareaQuery (el : DomElement) : Bool :=
  el.tag == "textarea" && !el.disabled

/-- Selector `button:not([disabled]), [role="button"]:not([disabled]),
input[type="button"]:not([disabled]), input[type="submit"]:not([disabled])`. -/
def buttonQuery (el : DomElement) : Bool :=
  (el.tag == "button" || el.roleAttr == some "button" ||
    (el.tag == "input" &&
      (el.typeAttr == some "button" || el.typeAttr == some "submit"))) &&
    !el.disabled

/-- Selector `select:not([disabled])`. -/
def selectQuery (el : DomElement) : Bool :=
  el.tag == "select" && !el.disabled

/-- Selector `a[href]:not([disabled])`. -/
def linkQuery (el : DomElement) : Bool :=
  el.tag == "a" && el.href.isSome && !el.disabled

/-- Selector `[role="tab"], [role="menuitem"], [role="checkbox"],
[role="radio"], [role="switch"]`. -/
def ariaWidgetQuery (el : DomElement) : Bool :=
  match el.roleAttr with
  | some r =>
    r == "tab" || r == "menuitem" || r == "checkbox" || r == "radio" ||
      r == "switch"
  | none => false

/-- A pushed descriptor before `getActionableElements` strips the live
reference.  Fields a pass does not set are `none`. -/
structure Entry where
  uniqueId : String
  etype : String
  inputType : Option String
  placeholder : Option String
  value : Option String
  text : Option String
  href : Option String
  nameField : Option String
  idField : String
  classes : String
  isVisible : Bool
  label : Option String
  ariaLabel : Option String
  ariaRole : String
  options : Option (List OptEntry)
  ariaSelected : Option Bool
  ariaExpanded : Option Bool
  ariaChecked : Option (Option String)
  domReference : Option Nat
  deriving DecidableEq, Repr

/-- Big-endian decimal digits of `n`, fuelled so that the kernel can
evaluate it (`fuel ≥ n` always suffices; `decDigits` passes `n` itself). -/
def decDigitsF : Nat → Nat → List Nat
  | 0, n => [n]
  | fuel + 1, n =>
    if n < 10 then [n] else decDigitsF fuel (n / 10) ++ [n % 10]

/-- Big-endian decimal digits of `n` (never empty; `0` gives `[0]`). -/
def decDigits (n : Nat) : List Nat :=
  decDigitsF n n

/-- Decimal rendering of a JS number in a template literal. -/
def natDecStr (n : Nat) : String :=
  ⟨(decDigits n).map Nat.digitChar⟩

/-- The sequential snapshot element id `element_` followed by the counter. -/
def mkElementId (n : Nat) : String :=
  "element_" ++ natDecStr n

/-- The accumulator threaded through `_extractActionableElements`:
the `elements` array plus the `idCounter` cell. -/
structure ExtAcc where
  entries : List Entry
  counter : Nat
  deriving Repr

/-- JS `elements.push({... uniqueId: generateUniqueId() ...})`: append the
descriptor made from the current counter value and advance the counter. -/
def pushEntry (acc : ExtAcc) (mk : Nat → Entry) : ExtAcc :=
  { entries := acc.entries ++ [mk acc.counter], counter := acc.counter + 1 }

/-- Descriptor pushed by the input pass. -/
def inputEntry (el : DomElement) (n : Nat) : Entry :=
  { uniqueId := mkElementId n
    etype := "input"
    inputType := some (inputTypeProp el)
    placeholder := some (el.placeholderAttr.getD "")
    value := some (el.value.getD "")
    text := none
    href := none
    nameField := some (el.nameAttr.getD "")
    idField := el.domId
    classes := String.intercalate " " el.classes
    isVisible := isElementVisible el
    label := some el.labelText
    ariaLabel := some (el.ariaLabel.getD "")
    ariaRole := ariaRoleOf el
    options := none
    ariaSelected := none
    ariaExpanded := none
    ariaChecked := none
    domReference := some el.ref }

/-- Descriptor pushed by the textarea pass. -/
def textareaEntry (el : DomElement) (n : Nat) : Entry :=
  { uniqueId := mkElementId n
    etype := "textarea"
    inputType := none
    placeholder := some (el.placeholderAttr.getD "")
    value := some (el.value.getD "")
    text := none
    href := none
    nameField := some (el.nameAttr.getD "")
    idField := el.domId
    classes := String.intercalate " " el.classes
    isVisible := isElementVisible el
    label := some el.labelText
    ariaLabel := some (el.ariaLabel.getD "")
    ariaRole := ariaRoleOf el
    options := none
    ariaSelected := none
    ariaExpanded := none
    ariaChecked := none
    domReference := some el.ref }

/-- Descriptor pushed by the button pass
(`text: button.innerText || button.value || ''`). -/
def buttonEntry (el : DomElement) (n : Nat) : Entry :=
  { uniqueId := mkElementId n
    etype := "button"
    inputType := none
    placeholder := none
    value := none
    text := some (jsOr el.innerText (jsOr (el.value.getD "") ""))
    href := none
    nameField := some (el.nameAttr.getD "")
    idField := el.domId
    classes := String.intercalate " " el.classes
    isVisible := isElementVisible el
    label := none
    ariaLabel := some (el.ariaLabel.getD "")
    ariaRole := ariaRoleOf el
    options := none
    ariaSelected := none
    ariaExpanded := none
    ariaChecked := none
    domReference := some el.ref }

/-- Descriptor pushed by the select pass. -/
def selectEntry (el : DomElement) (n : Nat) : Entry :=
  { uniqueId := mkElementId n
    etype := "select"
    inputType := none
    placeholder := none
    value := none
    text := none
    href := none
    nameField := some (el.nameAttr.getD "")
    idField := el.domId
    classes := String.intercalate " " el.classes
    isVisible := isElementVisible el
    label := some el.labelText
    ariaLabel := some (el.ariaLabel.getD "")
    ariaRole := ariaRoleOf el
    options := some el.opts
    ariaSelected := none
    ariaExpanded := none
    ariaChecked := none
    domReference := some el.ref }

/-- Descriptor pushed by the link pass. -/
def linkEntry (el : DomElement) (n : Nat) : Entry :=
  { uniqueId := mkElementId n
    etype := "link"
    inputType := none
    placeholder := none
    value := none
    text := some el.innerText
    href := some (el.href.getD "")
    nameField := none
    idField := el.domId
    classes := String.intercalate " " el.classes
    isVisible := isElementVisible el
    label := none
    ariaLabel := some (el.ariaLabel.getD "")
    ariaRole := ariaRoleOf el
    options := none
    ariaSelected := none
    ariaExpanded := none
    ariaChecked := none
    domReference := some el.ref }

/-- Descriptor pushed by the ARIA-widget pass. -/
def ariaEntry (el : DomElement) (n : Nat) : Entry :=
  { uniqueId := mkElementId n
    etype := "aria-" ++ el.roleAttr.getD ""
    inputType := none
    placeholder := none
    value := none
    text := some el.innerText
    href := none
    nameField := none
    idField := el.domId
    classes := String.intercalate " " el.classes
    isVisible := isElementVisible el
    label := none
    ariaLabel := some (el.ariaLabel.getD "")
    ariaRole := el.roleAttr.getD ""
    options := none
    ariaSelected := some (el.ariaSelected == some "true")
    ariaExpanded := some (el.ariaExpanded == some "true")
    ariaChecked := some el.ariaChecked
    domReference := some el.ref }

/-- One query pass: `this._getElements(sel).forEach(el => push(...))`. -/
def queryPass (q : DomElement → Bool) (mk : DomElement → Nat → Entry)
    (page : List DomElement) (acc : ExtAcc) : ExtAcc :=
  (page.filter q).foldl (fun a el => pushEntry a (mk el)) acc

/-- The ARIA-widget pass: push only elements not already captured
(`!elements.some(existing => existing.domReference === el)`). -/
def ariaPass (page : List DomElement) (acc : ExtAcc) : ExtAcc :=
  (page.filter ariaWidgetQuery).foldl
    (fun a el =>
      if a.entries.any (fun e => e.domReference == some el.ref) then a
      else pushEntry a (ariaEntry el))
    acc

/-- The full `elements` array built by `_extractActionableElements`
before the final visibility filter (`idCounter` starts at 1). -/
def extractAllEntries (page : List DomElement) : List Entry :=
  (ariaPass page
    (queryPass linkQuery linkEntry page
      (queryPass selectQuery selectEntry page
        (queryPass buttonQuery buttonEntry page
          (queryPass textareaQuery textareaEntry page
            (queryPass inputQuery inputEntry page ⟨[], 1⟩)))))).entries

/-- Model of `_extractActionableElements`: only visible elements are returned. -/
def extractActionableElements (page : List DomElement) : List Entry :=
  (extractAllEntries page).filter (fun e => e.isVisible)

/-- JS destructuring `const ... = el` without `domReference`: drop the live ref. -/
def stripDomReference (e : Entry) : Entry :=
  { e with domReference := none }

/-- Model of `getActionableElements`: wraps the extraction in a `try`/`catch`
(internal failure of `_extractActionableElements` is the `Except.error`
case), caches `uniqueId ↦ domReference` for later retrieval, and returns
the snapshot with live references stripped.  The `catch` branch logs and
returns an empty array (with the cache left cleared). -/
def getActionableElements (extracted : Except String (List Entry)) :
    List (String × Nat) × List Entry :=
  match extracted with
  | .error _ => ([], [])
  | .ok es =>
    (es.filterMap (fun e => e.domReference.map (fun r => (e.uniqueId, r))),
     es.map stripDomReference)

/-! ## Instance DOMParser: role+name target resolution

Model of the role+name branch of the instance `DOMParser.executeAction`:
candidate collection by explicit role attribute with an implicit-role tag
fallback, then the two matching passes over the candidates. -/

/-- Model of `_getTagsWithImplicitRole`, as a membership test: does `el` match the
tag selector associated with `role` (none for unknown roles)? -/
def implicitRoleMatch (role : String) (el : DomElement) : Bool :=
  match role with
  | "button" =>
    el.tag == "button" ||
      (el.tag == "input" &&
        (el.typeAttr == some "button" || el.typeAttr == some "submit" ||
          el.typeAttr == some "reset"))
  | "link" => el.tag == "a" && el.href.isSome
  | "textbox" =>
    (el.tag == "input" &&
      (el.typeAttr == none || el.typeAttr == some "text" ||
        el.typeAttr == some "email" || el.typeAttr == some "password" ||
        el.typeAttr == some "tel" || el.typeAttr == some "url")) ||
      el.tag == "textarea"
  | "checkbox" => el.tag == "input" && el.typeAttr == some "checkbox"
  | "radio" => el.tag == "input" && el.typeAttr == some "radio"
  | "combobox" => el.tag == "select"
  | "slider" => el.tag == "input" && el.typeAttr == some "range"
  | "searchbox" => el.tag == "input" && el.typeAttr == some "search"
  | "list" => el.tag == "ul" || el.tag == "ol"
  | "listitem" => el.tag == "li"
  | "table" => el.tag == "table"
  | "row" => el.tag == "tr"
  | "columnheader" => el.tag == "th"
  | _ => false

/-- Candidate collection: elements with the explicit `role` attribute,
falling back to the implicit-role tag query when none exist. -/
def collectRoleElements (page : List DomElement) (role : String) :
    List DomElement :=
  let explicitEls := page.filter (fun el => el.roleAttr == some role)
  if explicitEls.isEmpty then page.filter (implicitRoleMatch role)
  else explicitEls

/-- The first matching pass:
`el.textContent.includes(name) || el.value === name ||
el.getAttribute('name') === name || el.getAttribute('aria-label') === name
|| el.getAttribute('placeholder') === name`.  Note that the `textContent`
test is a case-sensitive substring test, not equality. -/
def primaryNameMatch (name : String) (el : DomElement) : Bool :=
  strIncludes el.textContent name || el.value == some name ||
    el.nameAttr == some name || el.ariaLabel == some name ||
    el.placeholderAttr == some name

/-- The fuzzy fallback pass: case-insensitive substring test over
textContent, name, aria-label and placeholder. -/
def fuzzyNameMatch (name : String) (el : DomElement) : Bool :=
  let searchName := lowerStr name
  strIncludes (lowerStr el.textContent) searchName ||
    strIncludes (lowerStr (el.nameAttr.getD "")) searchName ||
    strIncludes (lowerStr (el.ariaLabel.getD "")) searchName ||
    strIncludes (lowerStr (el.placeholderAttr.getD "")) searchName

/-- Role+name resolution of `executeAction`: first `find` with the
primary predicate, then — only when that found nothing — the fuzzy pass. -/
def findByRoleName (page : List DomElement) (role name : String) :
    Option DomElement :=
  let cands := collectRoleElements page role
  match cands.find? (primaryNameMatch name) with
  | some el => some el
  | none => cands.find? (fuzzyNameMatch name)

/-- The matching policy the specification describes: one of
text/aria-label/name/placeholder **exactly equals** `name`.  (Kept for
comparison with the source's `primaryNameMatch`.) -/
def specExactNameMatch (name : String) (el : DomElement) : Bool :=
  el.textContent == name || el.ariaLabel == some name ||
    el.nameAttr == some name || el.placeholderAttr == some name

/-- The uniqueIds of a descriptor list. -/
def entryIds (es : List Entry) : List String :=
  es.map (fun e => e.uniqueId)

/-- The id invariant `_extractActionableElements` maintains: the pushed
descriptors carry exactly the ids `element_1 … element_m` in order, and
the counter sits at `m + 1`. -/
def IdInv (acc : ExtAcc) : Prop :=
  ∃ m, acc.counter = m + 1 ∧
    entryIds acc.entries = (List.range' 1 m).map mkElementId

/-- A second invariant: every pushed descriptor carries a live reference
(`domReference` is set by all six pushes). -/
def RefInv (acc : ExtAcc) : Prop :=
  ∀ e ∈ acc.entries, e.domReference.isSome = true

/-! ## Concrete pages and observations used as test inputs -/

/-- A plain visible element with no attributes set. -/
def blankEl : DomElement :=
  { ref := 0
    tag := "div"
    typeAttr := none
    disabled := false
    href := none
    roleAttr := none
    placeholderAttr := none
    value := none
    nameAttr := none
    domId := ""
    classes := []
    innerText := ""
    textContent := ""
    ariaLabel := none
    ariaSelected := none
    ariaExpanded := none
    ariaChecked := none
    labelText := ""
    opts := []
    style := { display := "block", visibility := "visible", opacity := "1" }
    offsetWidth := 10
    offsetHeight := 10 }

/-- A button whose text merely **contains** "Sign In" (no field equals it). -/
def candA : DomElement :=
  { blankEl with ref := 1, roleAttr := some "button", textContent := "Sign In Now" }

/-- A button whose aria-label **exactly equals** "Sign In". -/
def candB : DomElement :=
  { blankEl with ref := 2, roleAttr := some "button", ariaLabel := some "Sign In", textContent := "OK" }

/-- A page observation used to exercise the no-change click path. -/
def obsSame : PageObs :=
  { url := "https://mail.example/u/0"
    bodyHTMLLen := 12345
    activeElement := 7
    scrollTop := 40
    dialogCount := 0
    modalCount := 1 }

/-- A visible text input (used for the cache/strip witness). -/
def plainInputEl : DomElement :=
  { blankEl with ref := 5, tag := "input" }

/-- A page with a visible input, an invisible input, and another visible
input — the id sequence of its snapshot has a gap. -/
def gapPage : List DomElement :=
  [{ blankEl with ref := 1, tag := "input" },
   { blankEl with ref := 2, tag := "input", style := { display := "none", visibility := "visible", opacity := "1" } },
   { blankEl with ref := 3, tag := "input" }]

/-- A page holding a single visible, enabled `input[type="submit"]`. -/
def submitPage : List DomElement :=
  [{ blankEl with ref := 4, tag := "input", typeAttr := some "submit", value := some "Go" }]

/-! ## Facts about the sequential element ids -/

/-- Value of a big-endian decimal digit list. -/
def decValue (l : List Nat) : Nat :=
  l.foldl (fun a d => a * 10 + d) 0

theorem decValue_append_last (l : List Nat) (d : Nat) :
    decValue (l ++ [d]) = decValue l * 10 + d := by
  simp [decValue, List.foldl_append]

theorem decValue_decDigitsF (fuel : Nat) :
    ∀ n, n ≤ fuel → decValue (decDigitsF fuel n) = n := by
  induction fuel with
  | zero =>
    intro n hn
    interval_cases n
    simp [decDigitsF, decValue]
  | succ fuel ih =>
    intro n hn
    by_cases h : n < 10
    · simp [decDigitsF, h, decValue]
    · have hdiv : n / 10 ≤ fuel := by omega
      simp only [decDigitsF, if_neg h, decValue_append_last, ih _ hdiv]
      omega

theorem decValue_decDigits (n : Nat) : decValue (decDigits n) = n :=
  decValue_decDigitsF n n le_rfl

theorem decDigitsF_lt_ten (fuel : Nat) :
    ∀ n, n ≤ fuel → ∀ d ∈ decDigitsF fuel n, d < 10 := by
  induction fuel with
  | zero =>
    intro n hn d hd
    interval_cases n
    simp [decDigitsF] at hd
    omega
  | succ fuel ih =>
    intro n hn d hd
    by_cases h : n < 10
    · simp [decDigitsF, h] at hd
      omega
    · simp only [decDigitsF, if_neg h, List.mem_append, List.mem_singleton] at hd
      rcases hd with hd | hd
      · exact ih _ (by omega) d hd
      · omega

theorem digitChar_inj_lt :
    ∀ a < 10, ∀ b < 10, Nat.digitChar a = Nat.digitChar b → a = b := by
  decide

theorem map_digitChar_inj :
    ∀ l₁ l₂ : List Nat, (∀ d ∈ l₁, d < 10) → (∀ d ∈ l₂, d < 10) →
      l₁.map Nat.digitChar = l₂.map Nat.digitChar → l₁ = l₂ := by
  intro l₁
  induction l₁ with
  | nil =>
    intro l₂ _ _ h
    cases l₂ with
    | nil => rfl
    | cons b bs => simp at h
  | cons a as ih =>
    intro l₂ h₁ h₂ h
    cases l₂ with
    | nil => simp at h
    | cons b bs =>
      simp only [List.map_cons, List.cons.injEq] at h
      have ha : a < 10 := h₁ a (by simp)
      have hb : b < 10 := h₂ b (by simp)
      have hab : a = b := digitChar_inj_lt a ha b hb h.1
      have htl : as = bs :=
        ih bs (fun d hd => h₁ d (by simp [hd])) (fun d hd => h₂ d (by simp [hd])) h.2
      rw [hab, htl]

theorem natDecStr_inj : Function.Injective natDecStr := by
  intro a b h
  have hdata : (decDigits a).map Nat.digitChar = (decDigits b).map Nat.digitChar :=
    congrArg String.data h
  have hdig : decDigits a = decDigits b :=
    map_digitChar_inj _ _ (decDigitsF_lt_ten a a le_rfl)
      (decDigitsF_lt_ten b b le_rfl) hdata
  calc a = decValue (decDigits a) := (decValue_decDigits a).symm
    _ = decValue (decDigits b) := by rw [hdig]
    _ = b := decValue_decDigits b

theorem mkElementId_inj : Function.Injective mkElementId := by
  intro a b h
  have hdata : ("element_".data ++ (natDecStr a).data)
      = ("element_".data ++ (natDecStr b).data) := by
    have := congrArg String.data h
    simpa [mkElementId, String.data_append] using this
  have : (natDecStr a).data = (natDecStr b).data :=
    List.append_cancel_left hdata
  exact natDecStr_inj (String.ext this)

theorem idInv_pushEntry (acc : ExtAcc) (mk : Nat → Entry)
    (h : IdInv acc) (hmk : ∀ n, (mk n).uniqueId = mkElementId n) :
    IdInv (pushEntry acc mk) := by
  obtain ⟨m, hc, hids⟩ := h
  refine ⟨m + 1, by simp [pushEntry, hc], ?_⟩
  have h1m : 1 + 1 * m = m + 1 := by omega
  have hconcat : List.range' 1 (m + 1) = List.range' 1 m ++ [m + 1] := by
    rw [List.range'_concat, h1m]
  simp only [pushEntry, entryIds, List.map_append, hc, hconcat]
  simp only [entryIds] at hids
  rw [hids]
  simp [hmk]

theorem foldl_preserves {α β : Type} {P : β → Prop} {f : β → α → β}
    (hf : ∀ b a, P b → P (f b a)) :
    ∀ (l : List α) (b : β), P b → P (l.foldl f b) := by
  intro l
  induction l with
  | nil => intro b hb; exact hb
  | cons a as ih =>
    intro b hb
    exact ih (f b a) (hf b a hb)

theorem idInv_queryPass (q : DomElement → Bool) (mk : DomElement → Nat → Entry)
    (page : List DomElement) (acc : ExtAcc) (h : IdInv acc)
    (hmk : ∀ el n, (mk el n).uniqueId = mkElementId n) :
    IdInv (queryPass q mk page acc) :=
  foldl_preserves (fun b el hb => idInv_pushEntry b (mk el) hb (hmk el))
    (page.filter q) acc h

theorem idInv_ariaPass (page : List DomElement) (acc : ExtAcc)
    (h : IdInv acc) : IdInv (ariaPass page acc) := by
  refine foldl_preserves (fun b el hb => ?_) (page.filter ariaWidgetQuery) acc h
  by_cases hdup : b.entries.any (fun e => e.domReference == some el.ref)
  · simpa [hdup] using hb
  · simpa [hdup] using idInv_pushEntry b (ariaEntry el) hb (fun _ => rfl)

theorem extractAllEntries_ids (page : List DomElement) :
    ∃ m, entryIds (extractAllEntries page) = (List.range' 1 m).map mkElementId := by
  have hbase : IdInv ⟨[], 1⟩ := ⟨0, rfl, by simp [entryIds]⟩
  have h1 := idInv_queryPass inputQuery inputEntry page _ hbase (fun _ _ => rfl)
  have h2 := idInv_queryPass textareaQuery textareaEntry page _ h1 (fun _ _ => rfl)
  have h3 := idInv_queryPass buttonQuery buttonEntry page _ h2 (fun _ _ => rfl)
  have h4 := idInv_queryPass selectQuery selectEntry page _ h3 (fun _ _ => rfl)
  have h5 := idInv_queryPass linkQuery linkEntry page _ h4 (fun _ _ => rfl)
  have h6 := idInv_ariaPass page _ h5
  obtain ⟨m, _, hids⟩ := h6
  exact ⟨m, hids⟩

theorem refInv_pushEntry (acc : ExtAcc) (mk : Nat → Entry)
    (h : RefInv acc) (hmk : ∀ n, (mk n).domReference.isSome = true) :
    RefInv (pushEntry acc mk) := by
  intro e he
  simp only [pushEntry, List.mem_append, List.mem_singleton] at he
  rcases he with he | he
  · exact h e he
  · rw [he]; exact hmk acc.counter

theorem refInv_queryPass (q : DomElement → Bool) (mk : DomElement → Nat → Entry)
    (page : List DomElement) (acc : ExtAcc) (h : RefInv acc)
    (hmk : ∀ el n, (mk el n).domReference.isSome = true) :
    RefInv (queryPass q mk page acc) :=
  foldl_preserves (fun b el hb => refInv_pushEntry b (mk el) hb (hmk el))
    (page.filter q) acc h

theorem refInv_ariaPass (page : List DomElement) (acc : ExtAcc)
    (h : RefInv acc) : RefInv (ariaPass page acc) := by
  refine foldl_preserves (fun b el hb => ?_) (page.filter ariaWidgetQuery) acc h
  by_cases hdup : b.entries.any (fun e => e.domReference == some el.ref)
  · simpa [hdup] using hb
  · simpa [hdup] using refInv_pushEntry b (ariaEntry el) hb (fun _ => rfl)

theorem extractAllEntries_ref (page : List DomElement) :
    ∀ e ∈ extractAllEntries page, e.domReference.isSome = true := by
  have hbase : RefInv ⟨[], 1⟩ := by intro e he; simp at he
  have h1 := refInv_queryPass inputQuery inputEntry page _ hbase (fun _ _ => rfl)
  have h2 := refInv_queryPass textareaQuery textareaEntry page _ h1 (fun _ _ => rfl)
  have h3 := refInv_queryPass buttonQuery buttonEntry page _ h2 (fun _ _ => rfl)
  have h4 := refInv_queryPass selectQuery selectEntry page _ h3 (fun _ _ => rfl)
  have h5 := refInv_queryPass linkQuery linkEntry page _ h4 (fun _ _ => rfl)
  exact refInv_ariaPass page _ h5

/-! ## Claim C1 -/

/-- C1, counterexample.  The claim states that only the **first** proposed
action of a planner reply is executed before the plan is re-derived.  On
the code, a reply carrying the two actions 1 and 2 (with an executor that
succeeds on everything) produces the execution trace `[1, 2]` inside a
single `_enterState` round: both actions run before the machine
transitions (`advance` is the transition to the next state, which is where
the next planner call happens).  The trace is not `[1]`, refuting the
claim. -/
theorem c1_counterexample_two_actions_one_round :
    enterStateRound (fun _ => true) 3 (some ⟨some [⟨1⟩, ⟨2⟩], none⟩)
      = ([⟨1⟩, ⟨2⟩], .advance) ∧
    ([(⟨1⟩ : SMAction), ⟨2⟩] : List SMAction) ≠ [⟨1⟩] := by
  constructor
  · simp [enterStateRound, smActionList, processQueue]
  · decide

/-- C1, amended: after receiving the planner's reply, the orchestrator
enqueues **every** proposed action and executes them sequentially; the
plan is re-derived only after the whole queue is drained, when the machine
transitions to the next state.  With an executor that succeeds on every
action, the round's execution trace is exactly the reply's full action
list, followed by the transition. -/
theorem c1_whole_reply_executed_before_replanning
    (exec : SMAction → Bool) (maxRetries : Nat) (reply : PlannerReply)
    (l : List SMAction) (h1 : reply.actions = some l)
    (h2 : ∀ a, exec a = true) :
    enterStateRound exec maxRetries (some reply) = (l, .advance) := by
  have key : ∀ q : List SMAction, processQueue exec maxRetries q 0 = (q, .advance) := by
    intro q
    induction q with
    | nil => simp [processQueue]
    | cons a rest ih => simp [processQueue, h2 a, ih]
  simp [enterStateRound, smActionList, h1, key]

/-- C1, witness for the amended theorem at a concrete reply. -/
theorem c1_whole_reply_executed_witness :
    enterStateRound (fun _ => true) 3 (some ⟨some [⟨5⟩, ⟨6⟩], none⟩)
      = ([⟨5⟩, ⟨6⟩], .advance) :=
  c1_whole_reply_executed_before_replanning (fun _ => true) 3
    ⟨some [⟨5⟩, ⟨6⟩], none⟩ [⟨5⟩, ⟨6⟩] rfl (fun _ => rfl)

/-! ## Claim C2 -/

/-- C2, counterexample.  The claim states that when an action's retry
limit is exceeded the orchestrator records a failed step, increments a
task-level failure counter and returns to planning, aborting only when a
task-level budget is also exceeded.  On the code, the very first action
whose retries are exhausted kills the machine: with `maxRetries = 2` and
an always-failing executor, the single queued action 7 is attempted three
times and the round ends in `halt` — `_handleActionFailure` calls
`stop()`, which clears the queue and terminates.  No step is recorded
anywhere (the machine has no step history), no failure counter exists,
and the machine never returns to planning (`halt ≠ advance`). -/
theorem c2_counterexample_first_exhaustion_kills_machine :
    processQueue (fun _ => false) 2 [⟨7⟩] 0 = ([⟨7⟩, ⟨7⟩, ⟨7⟩], .halt) ∧
    RoundOutcome.halt ≠ RoundOutcome.advance := by
  constructor
  · simp [processQueue]
  · decide

/-- C2, amended: when an action's retry count has reached `maxRetries`, a
further failure makes `_handleActionFailure` stop the state machine
outright — the round ends in `halt`, the rest of the queue is abandoned,
no failed step is recorded and no replanning happens.  There is no
task-level failure budget in the code. -/
theorem c2_retry_exhaustion_stops_machine
    (exec : SMAction → Bool) (maxRetries : Nat) (a : SMAction)
    (rest : List SMAction) (h : exec a = false) :
    processQueue exec maxRetries (a :: rest) maxRetries = ([a], .halt) := by
  simp [processQueue, h]

/-- C2, witness for the amended theorem at a concrete input. -/
theorem c2_retry_exhaustion_witness :
    processQueue (fun _ => false) 3 [⟨1⟩, ⟨2⟩] 3 = ([⟨1⟩], .halt) :=
  c2_retry_exhaustion_stops_machine (fun _ => false) 3 ⟨1⟩ [⟨2⟩] rfl

/-! ## Claim C3 -/

theorem processQueue_always_fail (exec : SMAction → Bool) (m : Nat)
    (a : SMAction) (rest : List SMAction) (h : exec a = false) :
    ∀ k rc, rc + k = m →
      processQueue exec m (a :: rest) rc = (List.replicate (k + 1) a, .halt) := by
  intro k
  induction k with
  | zero =>
    intro rc hrc
    have hrc' : rc = m := by omega
    subst hrc'
    simp [processQueue, h]
  | succ k ih =>
    intro rc hrc
    have hle : rc + 1 ≤ m := by omega
    have hnext := ih (rc + 1) (by omega)
    simp [processQueue, h, hle, hnext, List.replicate_succ]

/-- C3, counterexample.  With `maxRetries = 2` and an executor that always
fails, the head action 3 is attempted exactly three times (`2 + 1`, the
bound the claim states, which holds) — but afterwards nothing is
"recorded as failed": the round ends in `halt`, meaning
`_handleActionFailure` called `stop()`, the machine terminated, the queued
action 9 was silently dropped, and no failed ExecutionStep exists anywhere
(the StateMachine keeps no step history at all).  This refutes the claim's
final clause. -/
theorem c3_counterexample_no_failed_record :
    processQueue (fun _ => false) 2 [⟨3⟩, ⟨9⟩] 0 = ([⟨3⟩, ⟨3⟩, ⟨3⟩], .halt) ∧
    RoundOutcome.halt ≠ RoundOutcome.advance ∧
    ([(⟨3⟩ : SMAction), ⟨3⟩, ⟨3⟩] : List SMAction).length = 2 + 1 := by
  refine ⟨by simp [processQueue], by decide, by decide⟩

/-- C3, amended: an action that fails on every attempt is attempted
exactly `maxRetries + 1` times — the initial attempt plus `maxRetries`
retries, the same action re-queued at the front between attempts (the
trace is `maxRetries + 1` copies of that action) — before the state
machine stops; it records no failed step (the machine simply halts, and
any remaining queued actions are discarded). -/
theorem c3_retry_bound
    (exec : SMAction → Bool) (m : Nat) (a : SMAction)
    (rest : List SMAction) (h : exec a = false) :
    processQueue exec m (a :: rest) 0 = (List.replicate (m + 1) a, .halt) :=
  processQueue_always_fail exec m a rest h m 0 (by omega)

/-- C3, witness for the amended theorem at a concrete input. -/
theorem c3_retry_bound_witness :
    processQueue (fun _ => false) 4 [⟨8⟩] 0
      = (List.replicate 5 (⟨8⟩ : SMAction), .halt) :=
  c3_retry_bound (fun _ => false) 4 ⟨8⟩ [] rfl

/-! ## Claim C4 -/

/-- C4, counterexample.  The claim states that among candidates carrying
the role, an element one of whose text/aria-label/name/placeholder
**exactly equals** `name` is preferred, with a case-sensitive substring
match only as fallback.  On the code the first matching pass already uses
`textContent.includes(name)` — a substring test.  With candidates
`candA` (text "Sign In Now", no field equal to "Sign In") before `candB`
(aria-label exactly "Sign In"), resolution returns `candA`: the
substring-only match wins over the exact match, refuting the stated
preference.  (The code's fallback pass is moreover case-insensitive, not
case-sensitive.) -/
theorem c4_counterexample_substring_beats_exact :
    findByRoleName [candA, candB] "button" "Sign In" = some candA ∧
    specExactNameMatch "Sign In" candA = false ∧
    specExactNameMatch "Sign In" candB = true ∧
    candA ≠ candB := by
  refine ⟨by decide, by decide, by decide, by decide⟩

/-- C4, amended: resolution works in two passes over the role candidates
(explicit `role` attribute, falling back to tags with that implicit role).
The first pass picks the first candidate in document order whose
`textContent` **contains** `name` (case-sensitively) or whose
value/name/aria-label/placeholder exactly equals `name`; only when no
candidate passes that test does a second pass pick the first candidate
matching a **case-insensitive** substring test over
text/name/aria-label/placeholder.  Formally: any resolved element comes
from the candidate list and satisfies the primary test, or satisfies the
fuzzy test while no candidate satisfies the primary one; and whenever some
candidate satisfies the primary test, the resolved element satisfies the
primary test too. -/
theorem c4_two_pass_matching (page : List DomElement) (role name : String) :
    (∀ el, findByRoleName page role name = some el →
      el ∈ collectRoleElements page role ∧
        (primaryNameMatch name el = true ∨
          (fuzzyNameMatch name el = true ∧
            ∀ e ∈ collectRoleElements page role,
              primaryNameMatch name e = false))) ∧
    (∀ el ∈ collectRoleElements page role, primaryNameMatch name el = true →
      ∃ e, findByRoleName page role name = some e ∧
        primaryNameMatch name e = true) := by
  unfold findByRoleName
  cases hfind : (collectRoleElements page role).find? (primaryNameMatch name) with
  | some el0 =>
    constructor
    · intro el heq
      simp only [hfind, Option.some.injEq] at heq
      subst heq
      exact ⟨List.mem_of_find?_eq_some hfind,
        Or.inl (List.find?_some hfind)⟩
    · intro el _ _
      exact ⟨el0, by simp [hfind], List.find?_some hfind⟩
  | none =>
    have hnone : ∀ e ∈ collectRoleElements page role,
        primaryNameMatch name e = false := by
      intro e he
      have := List.find?_eq_none.mp hfind e he
      simpa using this
    constructor
    · intro el heq
      simp only [hfind] at heq
      exact ⟨List.mem_of_find?_eq_some heq,
        Or.inr ⟨List.find?_some heq, hnone⟩⟩
    · intro el hel hprim
      exact absurd hprim (by simp [hnone el hel])

/-- C4, witness for the amended theorem: on the concrete candidate list,
some element satisfying the primary test is resolved. -/
theorem c4_two_pass_matching_witness :
    ∃ e, findByRoleName [candA, candB] "button" "Sign In" = some e ∧
      primaryNameMatch "Sign In" e = true :=
  (c4_two_pass_matching [candA, candB] "button" "Sign In").2 candA
    (by decide) (by decide)

/-! ## Claim C5 -/

/-- C5: for a planner reply whose content does not parse as structured
data, `_processApiResponse` first attempts to recover an embedded
structured block from the surrounding prose — if that block parses, its
normalisation is used exactly as for a well-formed reply — and when that
recovery also fails it returns an empty action list together with an error
flag (the function is total: nothing is thrown to the caller). -/
theorem c5_malformed_reply_soft_failure
    (parse : String → Option Json) (extractEmbedded : String → Option String)
    (response : ApiResponse) (c : ApiChoice) (rest : List ApiChoice)
    (hch : response.choices = c :: rest)
    (hparse : parse c.message.content = none) :
    ((∀ s, extractEmbedded c.message.content = some s → parse s = none) →
      (processApiResponse parse extractEmbedded response).actions = [] ∧
        (processApiResponse parse extractEmbedded response).error.isSome
          = true) ∧
    (∀ s p, extractEmbedded c.message.content = some s → parse s = some p →
      processApiResponse parse extractEmbedded response
        = normalizeParsed c.message.content p) := by
  constructor
  · intro hfail
    cases hx : extractEmbedded c.message.content with
    | none =>
      simp [processApiResponse, hch, hparse, hx, processErrorResult]
    | some s =>
      have hs := hfail s hx
      simp [processApiResponse, hch, hparse, hx, hs, processErrorResult]
  · intro s p hx hp
    simp [processApiResponse, hch, hparse, hx, hp]

/-- C5, witness: a concrete unparseable reply with no recoverable block
yields empty actions plus an error flag. -/
theorem c5_malformed_reply_witness :
    (processApiResponse (fun _ => none) (fun _ => none)
        ⟨[⟨⟨"no json here"⟩⟩]⟩).actions = [] ∧
      (processApiResponse (fun _ => none) (fun _ => none)
          ⟨[⟨⟨"no json here"⟩⟩]⟩).error.isSome = true :=
  (c5_malformed_reply_soft_failure (fun _ => none) (fun _ => none)
      ⟨[⟨⟨"no json here"⟩⟩]⟩ ⟨⟨"no json here"⟩⟩ [] rfl rfl).1
    (fun s hs => by simp at hs)

/-! ## Claim C6 -/

/-- C6: snapshot extraction never throws to its caller —
`getActionableElements` is a total function of the extraction outcome, and
when `_extractActionableElements` fails internally (the `Except.error`
case of the `try`/`catch`) it returns the empty snapshot (and an empty
id cache), whatever the error was. -/
theorem c6_extraction_error_yields_empty (msg : String) :
    getActionableElements (Except.error msg) = ([], []) := rfl

/-- C6, witness at a concrete error message. -/
theorem c6_extraction_error_witness :
    getActionableElements (Except.error "boom") = ([], []) :=
  c6_extraction_error_yields_empty "boom"

/-! ## Claim C7 -/

/-- C7: a click whose before/after observation shows no change in URL,
active element, dialog count or modal count, a document-size delta of at
most 100 characters and a scroll delta of at most 50 pixels is resolved as
`success: true` with the no-visible-change warning — never as a
failure (the `error` field stays empty). -/
theorem c7_noop_click_success_with_warning (b a : PageObs)
    (hurl : b.url = a.url)
    (hfocus : b.activeElement = a.activeElement)
    (hdialog : b.dialogCount = a.dialogCount)
    (hmodal : b.modalCount = a.modalCount)
    (hdoc : ((b.bodyHTMLLen : Int) - (a.bodyHTMLLen : Int)).natAbs ≤ 100)
    (hscroll : (b.scrollTop - a.scrollTop).natAbs ≤ 50) :
    observeAfterAction "click" b a =
      { success := true
        visibleChange := none
        warning := some "Click executed but no visible change detected."
        error := none } := by
  have hch : anyVisibleChange b a = false := by
    simp only [anyVisibleChange, hurl, hfocus, hdialog, hmodal,
      Bool.or_eq_false_iff, decide_eq_false_iff_not, ne_eq, not_not,
      not_true, not_false_iff, not_lt]
    exact ⟨⟨⟨⟨⟨trivial, hdoc⟩, trivial⟩, hscroll⟩, trivial⟩, trivial⟩
  simp [observeAfterAction, hch]

/-- C7, witness: identical before/after observations of a click resolve
to the success-with-warning result. -/
theorem c7_noop_click_witness :
    observeAfterAction "click" obsSame obsSame =
      { success := true
        visibleChange := none
        warning := some "Click executed but no visible change detected."
        error := none } :=
  c7_noop_click_success_with_warning obsSame obsSame rfl rfl rfl rfl
    (by simp) (by simp)

/-! ## Claim C8 -/

/-- C8: every descriptor in the snapshot that `getActionableElements`
returns has its live DOM reference removed (`domReference` is gone from
the serialized form), while the internal cache — and only the cache —
retains the mapping from each descriptor's id to the live reference of the
extracted element. -/
theorem c8_snapshot_strips_refs_cache_retains (page : List DomElement) :
    (∀ e ∈ (getActionableElements
        (Except.ok (extractActionableElements page))).2,
      e.domReference = none) ∧
    (∀ e ∈ extractActionableElements page, ∃ r, e.domReference = some r ∧
      (e.uniqueId, r) ∈ (getActionableElements
        (Except.ok (extractActionableElements page))).1) := by
  constructor
  · intro e he
    simp only [getActionableElements, List.mem_map] at he
    obtain ⟨x, _, hx⟩ := he
    rw [← hx]
    rfl
  · intro e he
    have hall : e ∈ extractAllEntries page := List.mem_of_mem_filter he
    have hsome : e.domReference.isSome = true := extractAllEntries_ref page e hall
    obtain ⟨r, hr⟩ := Option.isSome_iff_exists.mp hsome
    refine ⟨r, hr, ?_⟩
    simp only [getActionableElements, List.mem_filterMap]
    exact ⟨e, he, by simp [hr]⟩

/-- C8, witness: on a one-input page, the extracted descriptor's id/ref
pair is retained in the cache. -/
theorem c8_snapshot_strips_refs_witness :
    ∃ r, (inputEntry plainInputEl 1).domReference = some r ∧
      ((inputEntry plainInputEl 1).uniqueId, r)
        ∈ (getActionableElements
            (Except.ok (extractActionableElements [plainInputEl]))).1 :=
  (c8_snapshot_strips_refs_cache_retains [plainInputEl]).2
    (inputEntry plainInputEl 1) (by decide)

/-! ## Claim C9 -/

/-- C9, counterexample.  The claim states that the ids of the returned
snapshot are exactly the consecutive sequence `element_1 … element_n`
where `n` is the snapshot's size.  Ids are assigned **before** the
visibility filter, so on a page with a visible input, an invisible input
and another visible input the returned snapshot has the two ids
`element_1` and `element_3` — not the consecutive `element_1, element_2`
the claim requires for a two-descriptor snapshot. -/
theorem c9_counterexample_id_gap :
    entryIds ((getActionableElements
        (Except.ok (extractActionableElements gapPage))).2)
      = ["element_1", "element_3"] ∧
    (List.range' 1 2).map mkElementId = ["element_1", "element_2"] ∧
    (["element_1", "element_3"] : List String)
      ≠ (List.range' 1 2).map mkElementId := by
  refine ⟨by decide, by decide, by decide⟩

/-- C9, amended: the id counter numbers all extracted descriptors
(visible or not) consecutively as `element_1 … element_m`; the returned
snapshot's ids are the subsequence of that list at the visible
descriptors, hence pairwise distinct and strictly increasing, but
consecutive only when nothing invisible was extracted. -/
theorem c9_snapshot_ids_distinct_increasing (page : List DomElement) :
    ∃ m,
      entryIds (extractAllEntries page)
        = (List.range' 1 m).map mkElementId ∧
      (entryIds ((getActionableElements
          (Except.ok (extractActionableElements page))).2)).Sublist
        ((List.range' 1 m).map mkElementId) ∧
      (entryIds ((getActionableElements
          (Except.ok (extractActionableElements page))).2)).Nodup := by
  obtain ⟨m, hids⟩ := extractAllEntries_ids page
  have hstrip : entryIds ((getActionableElements
      (Except.ok (extractActionableElements page))).2)
      = entryIds (extractActionableElements page) := by
    simp only [getActionableElements, entryIds, List.map_map]
    rfl
  have hsub : (entryIds (extractActionableElements page)).Sublist
      (entryIds (extractAllEntries page)) := by
    simp only [entryIds, extractActionableElements]
    exact (List.filter_sublist (extractAllEntries page)).map (fun e => e.uniqueId)
  have hnodup_all : ((List.range' 1 m).map mkElementId).Nodup :=
    List.Nodup.map mkElementId_inj (List.nodup_range' 1 m)
  refine ⟨m, hids, ?_, ?_⟩
  · rw [hstrip, ← hids]
    exact hsub
  · exact List.Sublist.nodup (by rw [hstrip, ← hids]; exact hsub) hnodup_all

/-! ## Claim C10 -/

/-- C10: a visible, enabled `input[type="submit"]` is captured twice in a
single snapshot — once by the generic input query (descriptor type
"input") and once by the button query (descriptor type "button"), both
referring to the same live element (ref 4) under two different ids —
because the duplicate-suppression check exists only in the ARIA-widget
pass. -/
theorem c10_submit_input_double_capture :
    (extractActionableElements submitPage).map
        (fun e => (e.etype, e.domReference))
      = [("input", some 4), ("button", some 4)] ∧
    ((getActionableElements
        (Except.ok (extractActionableElements submitPage))).2).map
        (fun e => (e.etype, e.uniqueId))
      = [("input", "element_1"), ("button", "element_2")] := by
  refine ⟨by decide, by decide⟩

/-- C9, witness for the amended theorem at the concrete gap page. -/
theorem c9_snapshot_ids_witness :
    ∃ m,
      entryIds (extractAllEntries gapPage)
        = (List.range' 1 m).map mkElementId ∧
      (entryIds ((getActionableElements
          (Except.ok (extractActionableElements gapPage))).2)).Sublist
        ((List.range' 1 m).map mkElementId) ∧
      (entryIds ((getActionableElements
          (Except.ok (extractActionableElements gapPage))).2)).Nodup :=
  c9_snapshot_ids_distinct_increasing gapPage
